import Mathlib

/-!
Shallow embedding of the conformance-checking core of the `goat_prover`
repository (`src/check.rs`): the test-suite driver `execute_test_suite`,
the test-unit executor `execute_test_unit`, and the sender resolver
`recover_address`, together with the data model they consume.

Machine integers are modelled as `Nat` with explicit clamps where the Rust
code clamps (`saturating_to`) and explicit failure where the Rust code
panics (`ruint`'s `to::<u64>()`, slice indexing, `Option::unwrap`).
A Rust panic and a returned `Err(String)` are kept distinct by the
`RunFailure` type, since only the latter flows through the function's
`Result` return value.

External library code (the revm execution engine, keccak-256, the k256
elliptic-curve parser, the blob-gas price derivation, and the
bincode/serde deserializer) is treated as a black box: the whole model is
parameterised by an `Ext` record holding those functions, exactly as the
spec treats the engine ("an already-correct black box").
-/

namespace GoatProver

/-- Byte sequences (each entry one byte). -/
abbrev Bytes := List Nat

/-- A 20-byte account address, as its byte sequence. -/
abbrev Address := List Nat

/-- The all-zero address (`Address::ZERO`). -/
def zeroAddress : Address := List.replicate 20 0

/-- `u64::MAX`. -/
def u64Max : Nat := 2 ^ 64 - 1

/-- An account of the unit's `pre` mapping (crate `models`):
balance, code bytes, nonce and storage. -/
structure AccountInfo where
  balance : Nat
  code : Bytes
  nonce : Nat
  storage : List (Nat × Nat)
deriving DecidableEq, Repr

/-- The unit's block environment (crate `models`, fields read by check.rs). -/
structure UnitEnv where
  current_number : Nat
  current_coinbase : Address
  current_timestamp : Nat
  current_gas_limit : Nat
  current_base_fee : Option Nat
  current_difficulty : Nat
  current_random : Option Nat
  parent_blob_gas_used : Option Nat
  parent_excess_blob_gas : Option Nat
deriving DecidableEq, Repr

/-- An access-list entry of the test data model (crate `models`). -/
structure ModelsAccessListItem where
  address : Address
  storage_keys : List Nat
deriving DecidableEq, Repr

/-- An access-list entry in the engine's own representation
(`revm::primitives::AccessListItem`); check.rs copies each `models`
entry into this shape field by field. -/
structure RevmAccessListItem where
  address : Address
  storage_keys : List Nat
deriving DecidableEq, Repr

/-- The transaction template (crate `models`, fields read by check.rs). -/
structure Transaction where
  sender : Option Address
  secret_key : Bytes
  gas_price : Option Nat
  max_fee_per_gas : Option Nat
  max_priority_fee_per_gas : Option Nat
  gas_limit : List Nat
  data : List Bytes
  value : List Nat
  access_lists : List (Option (List ModelsAccessListItem))
  -- the source field is named `to`, a reserved word here
  to_address : Option Address
  blob_versioned_hashes : List Nat
  max_fee_per_blob_gas : Option Nat
deriving DecidableEq, Repr

/-- The index triple of a post expectation. -/
structure TxIndexes where
  data : Nat
  gas : Nat
  value : Nat
deriving DecidableEq, Repr

/-- One post expectation: an index triple plus an optional
exception-category marker (check.rs only tests its presence). -/
structure PostExpectation where
  indexes : TxIndexes
  expect_exception : Option String
deriving DecidableEq, Repr

/-- Fork names of the test data model (crate `models`). -/
inductive SpecName where
  | Frontier
  | FrontierToHomesteadAt5
  | Homestead
  | HomesteadToDaoAt5
  | HomesteadToEIP150At5
  | EIP150
  | EIP158
  | EIP158ToByzantiumAt5
  | Byzantium
  | ByzantiumToConstantinopleAt5
  | ByzantiumToConstantinopleFixAt5
  | Constantinople
  | ConstantinopleFix
  | Istanbul
  | Berlin
  | BerlinToLondonAt5
  | London
  | Merge
  | Shanghai
  | Cancun
  | Prague
  | Unknown
deriving DecidableEq, Repr

/-- The engine's ruleset identifiers (`revm::primitives::SpecId`),
ordered by their `u8` discriminants. -/
inductive SpecId where
  | FRONTIER
  | FRONTIER_THAWING
  | HOMESTEAD
  | DAO_FORK
  | TANGERINE
  | SPURIOUS_DRAGON
  | BYZANTIUM
  | CONSTANTINOPLE
  | PETERSBURG
  | ISTANBUL
  | MUIR_GLACIER
  | BERLIN
  | LONDON
  | ARROW_GLACIER
  | GRAY_GLACIER
  | MERGE
  | SHANGHAI
  | CANCUN
  | PRAGUE
deriving DecidableEq, Repr

/-- The `u8` discriminant of a ruleset identifier (revm's declaration order). -/
def SpecId.toNat : SpecId → Nat
  | .FRONTIER => 0
  | .FRONTIER_THAWING => 1
  | .HOMESTEAD => 2
  | .DAO_FORK => 3
  | .TANGERINE => 4
  | .SPURIOUS_DRAGON => 5
  | .BYZANTIUM => 6
  | .CONSTANTINOPLE => 7
  | .PETERSBURG => 8
  | .ISTANBUL => 9
  | .MUIR_GLACIER => 10
  | .BERLIN => 11
  | .LONDON => 12
  | .ARROW_GLACIER => 13
  | .GRAY_GLACIER => 14
  | .MERGE => 15
  | .SHANGHAI => 16
  | .CANCUN => 17
  | .PRAGUE => 18

/-- `SpecId::enabled(our, other)`: `our as u8 >= other as u8`
(revm primitives). -/
def SpecId.enabled (our other : SpecId) : Bool :=
  other.toNat ≤ our.toNat

/-- Modelled from the spec: the fork ruleset resolver
(`SpecName::to_spec_id` of the repository's `models` crate, which is not
under src/) maps each supported fork name to the engine's ruleset
identifier; for the deprecated/transitional names and the unknown
placeholder it has no defined value (it panics), which check.rs avoids by
skipping those names before resolving. -/
def SpecName.to_spec_id : SpecName → Option SpecId
  | .Frontier => some .FRONTIER
  | .Homestead | .FrontierToHomesteadAt5 => some .HOMESTEAD
  | .EIP150 | .HomesteadToDaoAt5 | .HomesteadToEIP150At5 => some .TANGERINE
  | .EIP158 => some .SPURIOUS_DRAGON
  | .Byzantium | .EIP158ToByzantiumAt5 => some .BYZANTIUM
  | .ConstantinopleFix | .ByzantiumToConstantinopleFixAt5 => some .PETERSBURG
  | .Istanbul => some .ISTANBUL
  | .Berlin => some .BERLIN
  | .London | .BerlinToLondonAt5 => some .LONDON
  | .Merge => some .MERGE
  | .Shanghai => some .SHANGHAI
  | .Cancun => some .CANCUN
  | .Prague => some .PRAGUE
  | .ByzantiumToConstantinopleAt5 | .Constantinople | .Unknown => none

/-- The fork names check.rs excludes from checking (the `matches!` guard
at the top of the post loop). -/
def excludedFork (s : SpecName) : Bool :=
  match s with
  | .ByzantiumToConstantinopleAt5 | .Constantinople | .Unknown => true
  | _ => false

/-- One test unit (crate `models`): pre-state, block environment,
transaction template, and the post mapping (iterated in key order;
modelled as an ordered association list). -/
structure TestUnit where
  pre : List (Address × AccountInfo)
  env : UnitEnv
  transaction : Transaction
  post : List (SpecName × List PostExpectation)
deriving DecidableEq, Repr

/-- A test suite: named test units, iterated in key order
(modelled as an ordered association list). -/
structure TestSuite where
  units : List (String × TestUnit)
deriving DecidableEq, Repr

/-- How a run of the executor can fail: by returning `Err(msg)` through
its `Result`, or by a Rust panic (which aborts instead of returning). -/
inductive RunFailure where
  | err (msg : String)
  | panic (msg : String)
deriving DecidableEq, Repr

/-- Engine-side account record (`revm::primitives::AccountInfo`). -/
structure RevmAccountInfo where
  balance : Nat
  nonce : Nat
  code_hash : Bytes
  code : Option Bytes
deriving DecidableEq, Repr

/-- The engine-side cached pre-state (`revm::db::CacheState`): the
state-clearing flag plus the inserted accounts with their storage. -/
structure CacheState where
  has_state_clear : Bool
  accounts : List (Address × RevmAccountInfo × List (Nat × Nat))
deriving DecidableEq, Repr

/-- `CacheState::new(has_state_clear)`. -/
def CacheState.new (has_state_clear : Bool) : CacheState :=
  ⟨has_state_clear, []⟩

/-- Configuration part of the engine environment (fields check.rs sets). -/
structure CfgEnv where
  chain_id : Nat
  disable_base_fee : Bool
deriving DecidableEq, Repr

/-- Block part of the engine environment (fields check.rs sets).
The blob-gas fields are revm's single optional pair
(excess blob gas, derived blob gas price), unset by default. -/
structure BlockEnv where
  number : Nat
  coinbase : Address
  timestamp : Nat
  gas_limit : Nat
  basefee : Nat
  difficulty : Nat
  prevrandao : Option Nat
  blob_excess_gas_and_price : Option (Nat × Nat)
deriving DecidableEq, Repr

/-- Destination of the transaction (`revm::primitives::TxKind`). -/
inductive TransactTo where
  | call (a : Address)
  | create
deriving DecidableEq, Repr

/-- Transaction part of the engine environment (fields check.rs sets). -/
structure TxEnv where
  caller : Address
  gas_price : Nat
  gas_priority_fee : Option Nat
  blob_hashes : List Nat
  max_fee_per_blob_gas : Option Nat
  gas_limit : Nat
  data : Bytes
  value : Nat
  access_list : List RevmAccessListItem
  transact_to : TransactTo
deriving DecidableEq, Repr

/-- The engine environment (`revm::primitives::Env`, fields check.rs uses). -/
structure Env where
  cfg : CfgEnv
  block : BlockEnv
  tx : TxEnv
deriving DecidableEq, Repr

/-- `Env::default()`, restricted to the modelled fields; the blob-gas
pair starts unset (its zero/default state). -/
def Env.default : Env :=
  { cfg := { chain_id := 1, disable_base_fee := false }
    block :=
      { number := 0
        coinbase := zeroAddress
        timestamp := 1
        gas_limit := 2 ^ 256 - 1
        basefee := 0
        difficulty := 0
        prevrandao := some 0
        blob_excess_gas_and_price := none }
    tx :=
      { caller := zeroAddress
        gas_price := 0
        gas_priority_fee := none
        blob_hashes := []
        max_fee_per_blob_gas := none
        gas_limit := u64Max
        data := []
        value := 0
        access_list := []
        transact_to := .call zeroAddress } }

/-- The external black boxes the core drives: keccak-256, the
elliptic-curve key parser/serializer (`SigningKey::from_slice` composed
with `verifying_key().to_encoded_point(false)`, `none` when the key bytes
are not a valid signing key), the blob gas price derivation
(`calc_blob_gasprice`), the execution engine (`Evm::transact_commit`,
returning its result and the mutated state), and the
bincode-plus-JSON suite deserializer. -/
structure Ext where
  keccak256 : Bytes → Bytes
  secKeyToPubkey : Bytes → Option Bytes
  blobGasprice : Nat → Nat
  engine : SpecId → Env → CacheState → Except String Unit × CacheState
  decode : Bytes → Except String TestSuite

/-- `recover_address` (check.rs lines 13-17): parse the private key as a
signing key, take the uncompressed public-key encoding, drop its leading
format byte, keccak-hash the remaining bytes and keep everything past
byte 12 of the 32-byte digest — the low 20 bytes
(`Address::from_raw_public_key`). -/
def recover_address (ext : Ext) (private_key : Bytes) : Option Address :=
  match ext.secKeyToPubkey private_key with
  | none => none
  | some pub => some ((ext.keccak256 (pub.drop 1)).drop 12)

/-- `TARGET_BLOB_GAS_PER_BLOCK` of EIP-4844 (3 * 131072). -/
def TARGET_BLOB_GAS_PER_BLOCK : Nat := 393216

/-- `calc_excess_blob_gas` (revm primitives, the standard EIP-4844
update function): `(parent_excess + parent_used).saturating_sub(TARGET)`
(Nat subtraction is saturating). -/
def calc_excess_blob_gas (parent_blob_gas_used parent_excess_blob_gas : Nat) : Nat :=
  parent_excess_blob_gas + parent_blob_gas_used - TARGET_BLOB_GAS_PER_BLOCK

/-- `ruint`'s `to::<u64>()`: the value itself when it fits in 64 bits,
a panic otherwise. -/
def toU64Strict (x : Nat) : Except RunFailure Nat :=
  if x < 2 ^ 64 then .ok x else .error (.panic "uint conversion overflow")

/-- `U256::saturating_to::<u64>()`: clamp to `u64::MAX` on overflow. -/
def saturatingToU64 (x : Nat) : Nat :=
  min x u64Max

/-- The EIP-4844 step of environment construction (check.rs lines
57-66): when both parent blob fields are present, convert both to u64
(panicking on overflow, used first), apply the standard update function
and install the excess together with its derived blob gas price;
otherwise leave the blob field untouched. -/
def blobStep (ext : Ext) (env : Env) (uenv : UnitEnv) : Except RunFailure Env :=
  match uenv.parent_blob_gas_used, uenv.parent_excess_blob_gas with
  | some parent_blob_gas_used, some parent_excess_blob_gas =>
    match toU64Strict parent_blob_gas_used with
    | .error f => .error f
    | .ok used =>
      match toU64Strict parent_excess_blob_gas with
      | .error f => .error f
      | .ok excess =>
        let newExcess := calc_excess_blob_gas used excess
        .ok { env with block := { env.block with
                blob_excess_gas_and_price := some (newExcess, ext.blobGasprice newExcess) } }
  | _, _ => .ok env

/-- The sender-resolution step (check.rs lines 69-72): an explicit
sender is used unchanged; otherwise the caller is recovered from the
private key, and an unparsable key yields `Err(String::new())` —
the empty string (`ok_or_else(String::new)?`). -/
def senderStep (ext : Ext) (env : Env) (tx : Transaction) : Except RunFailure Env :=
  match tx.sender with
  | some address => .ok { env with tx := { env.tx with caller := address } }
  | none =>
    match recover_address ext tx.secret_key with
    | some a => .ok { env with tx := { env.tx with caller := a } }
    | none => .error (.err "")

/-- The first stage of environment construction (check.rs lines 41-55):
defaults, chain id 1 with base-fee charging disabled, then the block
fields copied from the unit's env (base fee defaulting to zero). -/
def envBase (unit : TestUnit) : Env :=
  { Env.default with
    cfg := { Env.default.cfg with chain_id := 1, disable_base_fee := true }
    block := { Env.default.block with
      number := unit.env.current_number
      coinbase := unit.env.current_coinbase
      timestamp := unit.env.current_timestamp
      gas_limit := unit.env.current_gas_limit
      basefee := unit.env.current_base_fee.getD 0
      difficulty := unit.env.current_difficulty
      prevrandao := unit.env.current_random } }

/-- The unit-wide transaction fields set after sender resolution
(check.rs lines 73-81): effective gas price (gas price, else
max-fee-per-gas, else zero), priority fee, blob hashes and blob fee cap. -/
def finishTx (unit : TestUnit) (env : Env) : Env :=
  { env with tx := { env.tx with
      gas_price := (unit.transaction.gas_price.orElse
        (fun _ => unit.transaction.max_fee_per_gas)).getD 0
      gas_priority_fee := unit.transaction.max_priority_fee_per_gas
      blob_hashes := unit.transaction.blob_versioned_hashes
      max_fee_per_blob_gas := unit.transaction.max_fee_per_blob_gas } }

/-- Environment construction for one unit (check.rs lines 41-81), in
source order: the block-level base, the EIP-4844 blob step, the sender
resolution, then the remaining unit-wide transaction fields. -/
def buildEnv (ext : Ext) (unit : TestUnit) : Except RunFailure Env :=
  match blobStep ext (envBase unit) unit.env with
  | .error f => .error f
  | .ok env =>
    match senderStep ext env unit.transaction with
    | .error f => .error f
    | .ok env => .ok (finishTx unit env)

/-- Pre-state construction (check.rs lines 30-39): a fresh
`CacheState::new(false)` into which every `pre` account is inserted with
its keccak code hash, raw code, balance, nonce and storage. -/
def buildCacheState (ext : Ext) (pre : List (Address × AccountInfo)) : CacheState :=
  pre.foldl
    (fun cs p =>
      { cs with accounts := cs.accounts ++
          [(p.1,
            { balance := p.2.balance
              nonce := p.2.nonce
              code_hash := ext.keccak256 p.2.code
              code := some p.2.code },
            p.2.storage)] })
    (CacheState.new false)

/-- Variant selection overlaid onto the (mutable) environment (check.rs
lines 94-121): gas limit by slice indexing at `gas` (panicking when out
of bounds) saturated to u64; data by `.get(data).unwrap()` (panicking on
`None`); value by slice indexing at `value` (panicking when out of
bounds); the access list at index `data`, silently empty when the index
is out of bounds or the entry is `None`, each entry copied field by
field; destination a call when `to` is present, a create otherwise. -/
def overlayTx (tx : Transaction) (env : Env) (t : PostExpectation) : Except RunFailure Env :=
  match tx.gas_limit.get? t.indexes.gas with
  | none => .error (.panic "index out of range")
  | some g =>
    match tx.data.get? t.indexes.data with
    | none => .error (.panic "called Option::unwrap() on a None value")
    | some d =>
      match tx.value.get? t.indexes.value with
      | none => .error (.panic "index out of range")
      | some v =>
        .ok { env with tx := { env.tx with
                gas_limit := saturatingToU64 g
                data := d
                value := v
                access_list :=
                  (((tx.access_lists.get? t.indexes.data).bind id).getD []).map
                    (fun item =>
                      { address := item.address
                        storage_keys := item.storage_keys : RevmAccessListItem })
                transact_to :=
                  match tx.to_address with
                  | some add => .call add
                  | none => .create } }

/-- The per-expectation snapshot (check.rs lines 123-127): a clone of the
unit's cache onto which the fork's state-clearing flag is set —
enabled exactly when the ruleset is at or after `SPURIOUS_DRAGON`. -/
def snapshotFor (cache_state : CacheState) (spec_id : SpecId) : CacheState :=
  { cache_state with has_state_clear := SpecId.enabled spec_id .SPURIOUS_DRAGON }

/-- `Result::err` — the error of a `Result`, when there is one. -/
def exceptError : Except String Unit → Option String
  | .error e => some e
  | .ok _ => none

/-- The outcome classifier (the `check` closure, check.rs lines 140-156):
no exception expected and success, or exception expected and failure, is
a PASS; otherwise the code stringifies `exec_result.err()` with
`.unwrap()`, which returns the engine's error text when the failure was
unexpected and panics (unwrap on `None`) when success was unexpected. -/
def classify (expect_exception : Option String) (exec_result : Except String Unit) :
    Except RunFailure Unit :=
  match expect_exception, exec_result with
  | none, .ok _ => .ok ()
  | some _, .error _ => .ok ()
  | _, _ =>
    match exceptError exec_result with
    | some e => .error (.err e)
    | none => .error (.panic "called Option::unwrap() on a None value")

/-- The inner expectation loop of `execute_test_unit` (check.rs lines
93-161) for one fork: overlay the variant onto the threaded environment,
run the engine on a fresh snapshot (its mutated state is dropped),
classify, and stop at the first failure; on success the threaded
environment is carried to the next iteration. -/
def runTests (ext : Ext) (tx : Transaction) (cache_state : CacheState) (spec_id : SpecId) :
    Env → List PostExpectation → Except RunFailure Env
  | env, [] => .ok env
  | env, t :: rest =>
    match overlayTx tx env t with
    | .error f => .error f
    | .ok env =>
      let r := ext.engine spec_id env (snapshotFor cache_state spec_id)
      match classify t.expect_exception r.1 with
      | .error f => .error f
      | .ok _ => runTests ext tx cache_state spec_id env rest

/-- The outer fork loop of `execute_test_unit` (check.rs lines 84-162):
excluded fork names are skipped silently; every other name is resolved
(the resolver has no value on excluded names) and its expectations run;
the first failure aborts the unit. -/
def runForks (ext : Ext) (tx : Transaction) (cache_state : CacheState) :
    Env → List (SpecName × List PostExpectation) → Except RunFailure Env
  | env, [] => .ok env
  | env, (spec_name, tests) :: rest =>
    if excludedFork spec_name then
      runForks ext tx cache_state env rest
    else
      match spec_name.to_spec_id with
      | none => .error (.panic "unsupported spec name")
      | some spec_id =>
        match runTests ext tx cache_state spec_id env tests with
        | .error f => .error f
        | .ok env => runForks ext tx cache_state env rest

/-- `execute_test_unit` (check.rs lines 28-164): build the cached
pre-state and the unit environment, then run every non-excluded
(fork, expectation) pair, aborting at the first failure. -/
def execute_test_unit (ext : Ext) (unit : TestUnit) : Except RunFailure Unit :=
  let cache_state := buildCacheState ext unit.pre
  match buildEnv ext unit with
  | .error f => .error f
  | .ok env =>
    match runForks ext unit.transaction cache_state env unit.post with
    | .error f => .error f
    | .ok _ => .ok ()

/-- The unit loop of `execute_test_suite` (check.rs lines 22-24): run
each named unit in order, propagating the first failure. -/
def runUnits (ext : Ext) : List (String × TestUnit) → Except RunFailure Unit
  | [] => .ok ()
  | (_, u) :: rest =>
    match execute_test_unit ext u with
    | .error f => .error f
    | .ok _ => runUnits ext rest

/-- `execute_test_suite` (check.rs lines 19-26): decode the binary
envelope into a suite (a decode error becomes `Err(e.to_string())`),
then run the units sequentially. -/
def execute_test_suite (ext : Ext) (test_data : Bytes) : Except RunFailure Unit :=
  match ext.decode test_data with
  | .error e => .error (.err e)
  | .ok suite => runUnits ext suite.units

/-! ### Specification-side helper predicates -/

/-- Whether an `Except` value is a success. -/
def exceptIsOk : Except RunFailure Env → Bool
  | .ok _ => true
  | .error _ => false

/-- Whether environment construction for this unit's env would hit one of
the `to::<u64>()` panics of the blob step: only possible when both parent
blob fields are present and one exceeds `u64`. -/
def blobPanics (uenv : UnitEnv) : Bool :=
  match uenv.parent_blob_gas_used, uenv.parent_excess_blob_gas with
  | some u, some e => decide (2 ^ 64 ≤ u) || decide (2 ^ 64 ≤ e)
  | _, _ => false

/-! ### Concrete fixtures used by witnesses and counterexamples -/

/-- A concrete nonzero address. -/
def addrA : Address := List.replicate 20 1

/-- A second concrete address. -/
def addrB : Address := List.replicate 20 2

/-- A concrete instantiation of the external black boxes: a dummy hash,
a key parser that rejects every key, a unit blob gas price, an engine
that always succeeds, and a decoder that always fails. -/
def extOk : Ext :=
  { keccak256 := fun b => List.replicate 32 (b.length % 256)
    secKeyToPubkey := fun _ => none
    blobGasprice := fun _ => 1
    engine := fun _ _ s => (.ok (), s)
    decode := fun _ => .error "decode error" }

/-- Like `extOk` but with an engine that always fails with `boom`. -/
def extFail : Ext :=
  { extOk with engine := fun _ _ s => (.error "boom", s) }

/-- A concrete block environment without blob fields. -/
def baseUnitEnv : UnitEnv :=
  { current_number := 1
    current_coinbase := zeroAddress
    current_timestamp := 1000
    current_gas_limit := 10000000
    current_base_fee := none
    current_difficulty := 0
    current_random := none
    parent_blob_gas_used := none
    parent_excess_blob_gas := none }

/-- A concrete transaction template with an explicit sender and one
candidate per sequence. -/
def baseTx : Transaction :=
  { sender := some addrA
    secret_key := []
    gas_price := some 10
    max_fee_per_gas := none
    max_priority_fee_per_gas := none
    gas_limit := [21000]
    data := [[]]
    value := [10]
    access_lists := []
    to_address := some addrB
    blob_versioned_hashes := []
    max_fee_per_blob_gas := none }

/-- The expectation selecting index 0 everywhere, no exception expected. -/
def expect0 : PostExpectation :=
  { indexes := { data := 0, gas := 0, value := 0 }, expect_exception := none }

/-- Like `expect0` but with an exception declared. -/
def expectExc : PostExpectation :=
  { expect0 with expect_exception := some "someException" }

/-- A concrete unit: one account, one Merge expectation. -/
def baseUnit : TestUnit :=
  { pre := [(addrA, { balance := 100, code := [], nonce := 0, storage := [] })]
    env := baseUnitEnv
    transaction := baseTx
    post := [(.Merge, [expect0])] }

/-! ### Shared structural lemmas -/

/-- The expectation loop splits over list append: the suffix only runs
if the prefix succeeded, starting from the prefix's threaded environment. -/
theorem runTests_append (ext : Ext) (tx : Transaction) (cache : CacheState) (sid : SpecId) :
    ∀ (ts1 ts2 : List PostExpectation) (env : Env),
      runTests ext tx cache sid env (ts1 ++ ts2) =
        match runTests ext tx cache sid env ts1 with
        | .error f => .error f
        | .ok env2 => runTests ext tx cache sid env2 ts2 := by
  intro ts1
  induction ts1 with
  | nil => intro ts2 env; rfl
  | cons t rest ih =>
    intro ts2 env
    simp only [List.cons_append, runTests]
    cases overlayTx tx env t with
    | error f => rfl
    | ok env2 =>
      dsimp only
      cases classify t.expect_exception (ext.engine sid env2 (snapshotFor cache sid)).1 with
      | error f => rfl
      | ok _ =>
        dsimp only
        exact ih ts2 env2

/-- The fork loop splits over list append. -/
theorem runForks_append (ext : Ext) (tx : Transaction) (cache : CacheState) :
    ∀ (fs1 fs2 : List (SpecName × List PostExpectation)) (env : Env),
      runForks ext tx cache env (fs1 ++ fs2) =
        match runForks ext tx cache env fs1 with
        | .error f => .error f
        | .ok env2 => runForks ext tx cache env2 fs2 := by
  intro fs1
  induction fs1 with
  | nil => intro fs2 env; rfl
  | cons p rest ih =>
    intro fs2 env
    simp only [List.cons_append, runForks]
    cases hx : excludedFork p.1 with
    | true =>
      rw [if_pos rfl, if_pos rfl]
      exact ih fs2 env
    | false =>
      rw [if_neg Bool.false_ne_true, if_neg Bool.false_ne_true]
      cases p.1.to_spec_id with
      | none => rfl
      | some sid =>
        dsimp only
        cases runTests ext tx cache sid env p.2 with
        | error f => rfl
        | ok env2 =>
          dsimp only
          exact ih fs2 env2

/-- The unit loop splits over list append. -/
theorem runUnits_append (ext : Ext) :
    ∀ us1 us2 : List (String × TestUnit),
      runUnits ext (us1 ++ us2) =
        match runUnits ext us1 with
        | .error f => .error f
        | .ok _ => runUnits ext us2 := by
  intro us1
  induction us1 with
  | nil => intro us2; rfl
  | cons p rest ih =>
    intro us2
    simp only [List.cons_append, runUnits]
    cases execute_test_unit ext p.2 with
    | error f => rfl
    | ok _ =>
      dsimp only
      exact ih us2

/-- When the three panicking look-ups all succeed, variant selection
succeeds and its result is the input environment with exactly the five
transaction fields overlaid. -/
theorem overlayTx_ok (tx : Transaction) (env : Env) (t : PostExpectation)
    (g : Nat) (d : Bytes) (v : Nat)
    (hg : tx.gas_limit.get? t.indexes.gas = some g)
    (hd : tx.data.get? t.indexes.data = some d)
    (hv : tx.value.get? t.indexes.value = some v) :
    overlayTx tx env t = .ok { env with tx := { env.tx with
      gas_limit := saturatingToU64 g
      data := d
      value := v
      access_list :=
        (((tx.access_lists.get? t.indexes.data).bind id).getD []).map
          (fun item =>
            { address := item.address
              storage_keys := item.storage_keys : RevmAccessListItem })
      transact_to :=
        match tx.to_address with
        | some add => .call add
        | none => .create } } := by
  simp only [overlayTx, hg, hd, hv]

/-- Variant selection overwrites every field it reads: overlaying onto
an environment already produced by an overlay is the same as overlaying
onto the original environment. -/
theorem overlayTx_overwrite (tx : Transaction) (env env2 : Env) (A B : PostExpectation)
    (h : overlayTx tx env A = .ok env2) :
    overlayTx tx env2 B = overlayTx tx env B := by
  cases hg : tx.gas_limit.get? A.indexes.gas with
  | none =>
    simp only [overlayTx, hg] at h
    exact Except.noConfusion h
  | some g =>
    cases hd : tx.data.get? A.indexes.data with
    | none =>
      simp only [overlayTx, hg, hd] at h
      exact Except.noConfusion h
    | some d =>
      cases hv : tx.value.get? A.indexes.value with
      | none =>
        simp only [overlayTx, hg, hd, hv] at h
        exact Except.noConfusion h
      | some v =>
        rw [overlayTx_ok tx env A g d v hg hd hv] at h
        cases h
        rfl

/-- The sender step never touches the block environment. -/
theorem senderStep_block (ext : Ext) (env env2 : Env) (tx : Transaction)
    (h : senderStep ext env tx = .ok env2) : env2.block = env.block := by
  cases hs : tx.sender with
  | some a =>
    simp only [senderStep, hs] at h
    cases h
    rfl
  | none =>
    cases hr : recover_address ext tx.secret_key with
    | none =>
      simp only [senderStep, hs, hr] at h
      exact Except.noConfusion h
    | some a =>
      simp only [senderStep, hs, hr] at h
      cases h
      rfl

/-- The environment produced by a successful blob step on present,
fitting parent values. -/
def envWithBlob (ext : Ext) (env : Env) (u e : Nat) : Env :=
  { env with block := { env.block with
      blob_excess_gas_and_price :=
        some (calc_excess_blob_gas u e, ext.blobGasprice (calc_excess_blob_gas u e)) } }

/-- When both parent blob fields are present and fit in u64, the blob
step installs the EIP-4844 update together with its derived price. -/
theorem blobStep_eq_of_fits (ext : Ext) (env : Env) (uenv : UnitEnv) (u e : Nat)
    (hu : uenv.parent_blob_gas_used = some u)
    (he : uenv.parent_excess_blob_gas = some e)
    (h1 : u < 2 ^ 64) (h2 : e < 2 ^ 64) :
    blobStep ext env uenv = .ok (envWithBlob ext env u e) := by
  simp only [blobStep, hu, he, toU64Strict, if_pos h1, if_pos h2, envWithBlob]

/-- When either parent blob field is absent, the blob step leaves the
environment untouched. -/
theorem blobStep_eq_of_missing (ext : Ext) (env : Env) (uenv : UnitEnv)
    (h : uenv.parent_blob_gas_used = none ∨ uenv.parent_excess_blob_gas = none) :
    blobStep ext env uenv = .ok env := by
  cases hu : uenv.parent_blob_gas_used with
  | none => simp [blobStep, hu]
  | some u =>
    cases he : uenv.parent_excess_blob_gas with
    | none => simp [blobStep, hu, he]
    | some e =>
      rcases h with h | h
      · rw [hu] at h; exact Option.noConfusion h
      · rw [he] at h; exact Option.noConfusion h

/-- When the unit's env cannot hit the blob-step u64 panics, the blob
step succeeds. -/
theorem blobStep_isOk (ext : Ext) (env : Env) (uenv : UnitEnv)
    (h : blobPanics uenv = false) :
    ∃ env2, blobStep ext env uenv = .ok env2 := by
  cases hu : uenv.parent_blob_gas_used with
  | none => exact ⟨env, blobStep_eq_of_missing ext env uenv (Or.inl hu)⟩
  | some u =>
    cases he : uenv.parent_excess_blob_gas with
    | none => exact ⟨env, blobStep_eq_of_missing ext env uenv (Or.inr he)⟩
    | some e =>
      simp only [blobPanics, hu, he, Bool.or_eq_false_iff, decide_eq_false_iff_not,
        not_le] at h
      exact ⟨envWithBlob ext env u e, blobStep_eq_of_fits ext env uenv u e hu he h.1 h.2⟩

/-- A post mapping all of whose fork names are excluded is walked
without running anything and without touching the environment. -/
theorem runForks_all_excluded (ext : Ext) (tx : Transaction) (cache : CacheState) :
    ∀ (post : List (SpecName × List PostExpectation)) (env : Env),
      (∀ p ∈ post, excludedFork p.1 = true) →
      runForks ext tx cache env post = .ok env := by
  intro post
  induction post with
  | nil => intro env _; rfl
  | cons p rest ih =>
    intro env hall
    have hp : excludedFork p.1 = true := hall p (List.mem_cons_self p rest)
    cases p with
    | mk name tests =>
      simp only [runForks, hp, if_pos rfl]
      exact ih env (fun q hq => hall q (List.mem_cons_of_mem _ hq))

/-- `finishTx` does not change the caller. -/
theorem finishTx_caller (unit : TestUnit) (env : Env) :
    (finishTx unit env).tx.caller = env.tx.caller := rfl

/-- `finishTx` does not change the block environment. -/
theorem finishTx_block (unit : TestUnit) (env : Env) :
    (finishTx unit env).block = env.block := rfl

/-- With an explicit sender, the sender step uses it unchanged. -/
theorem senderStep_some (ext : Ext) (env : Env) (tx : Transaction) (a : Address)
    (hs : tx.sender = some a) :
    senderStep ext env tx = .ok { env with tx := { env.tx with caller := a } } := by
  simp only [senderStep, hs]

/-- Without an explicit sender, a recoverable key sets the caller to the
recovered address. -/
theorem senderStep_recover (ext : Ext) (env : Env) (tx : Transaction) (a : Address)
    (hs : tx.sender = none) (hr : recover_address ext tx.secret_key = some a) :
    senderStep ext env tx = .ok { env with tx := { env.tx with caller := a } } := by
  simp only [senderStep, hs, hr]

/-- Without an explicit sender, an unrecoverable key fails with the
empty error string. -/
theorem senderStep_fail (ext : Ext) (env : Env) (tx : Transaction)
    (hs : tx.sender = none) (hr : recover_address ext tx.secret_key = none) :
    senderStep ext env tx = .error (.err "") := by
  simp only [senderStep, hs, hr]

/-! ### Claim theorems -/

/-- A unit whose single expectation declares an exception while the
engine succeeds. -/
def unitUnexpectedSuccess : TestUnit :=
  { baseUnit with post := [(.Merge, [expectExc])] }

/-- C1: the outcome classifier maps (no exception expected, success) and
(exception expected, failure) to PASS, and (no exception expected,
failure) to a FAIL carrying the engine's own error text — but in the
remaining case (exception expected, engine succeeded) the code does not
return a failure result: stringifying `exec_result.err()` with
`.unwrap()` panics on `None`, as the concrete run of
`execute_test_unit` on `unitUnexpectedSuccess` shows. -/
theorem C1_outcome_classification :
    (classify none (.ok ()) = .ok ()) ∧
    (∀ (marker e : String), classify (some marker) (.error e) = .ok ()) ∧
    (∀ e : String, classify none (.error e) = .error (.err e)) ∧
    (∀ marker : String, classify (some marker) (.ok ()) =
      .error (.panic "called Option::unwrap() on a None value")) ∧
    (execute_test_unit extOk unitUnexpectedSuccess =
      .error (.panic "called Option::unwrap() on a None value")) := by
  refine ⟨rfl, fun marker e => rfl, fun e => rfl, fun marker => rfl, ?_⟩
  rfl

/-- C2: the executor is fail-fast at every level: a failing prefix of
the expectation list decides the whole list regardless of what follows;
likewise for the fork list and for the unit list of a suite; a unit-level
failure is the result of `execute_test_unit`, and the suite driver runs
exactly the decoded units. -/
theorem C2_fail_fast :
    (∀ (ext : Ext) (tx : Transaction) (cache : CacheState) (sid : SpecId) (env : Env)
        (ts1 ts2 : List PostExpectation) (f : RunFailure),
        runTests ext tx cache sid env ts1 = .error f →
        runTests ext tx cache sid env (ts1 ++ ts2) = .error f) ∧
    (∀ (ext : Ext) (tx : Transaction) (cache : CacheState) (env : Env)
        (fs1 fs2 : List (SpecName × List PostExpectation)) (f : RunFailure),
        runForks ext tx cache env fs1 = .error f →
        runForks ext tx cache env (fs1 ++ fs2) = .error f) ∧
    (∀ (ext : Ext) (unit : TestUnit) (env : Env) (f : RunFailure),
        buildEnv ext unit = .ok env →
        runForks ext unit.transaction (buildCacheState ext unit.pre) env unit.post =
          .error f →
        execute_test_unit ext unit = .error f) ∧
    (∀ (ext : Ext) (nm : String) (u : TestUnit) (rest : List (String × TestUnit))
        (f : RunFailure),
        execute_test_unit ext u = .error f → runUnits ext ((nm, u) :: rest) = .error f) ∧
    (∀ (ext : Ext) (us1 us2 : List (String × TestUnit)) (f : RunFailure),
        runUnits ext us1 = .error f → runUnits ext (us1 ++ us2) = .error f) ∧
    (∀ (ext : Ext) (bs : Bytes) (suite : TestSuite),
        ext.decode bs = .ok suite → execute_test_suite ext bs = runUnits ext suite.units) := by
  refine ⟨?_, ?_, ?_, ?_, ?_, ?_⟩
  · intro ext tx cache sid env ts1 ts2 f h
    rw [runTests_append ext tx cache sid ts1 ts2 env, h]
  · intro ext tx cache env fs1 fs2 f h
    rw [runForks_append ext tx cache fs1 fs2 env, h]
  · intro ext unit env f hb hr
    simp only [execute_test_unit, hb, hr]
  · intro ext nm u rest f h
    simp only [runUnits, h]
  · intro ext us1 us2 f h
    rw [runUnits_append ext us1 us2, h]
  · intro ext bs suite h
    simp only [execute_test_suite, h]

/-- C2 witness: with an always-failing engine, the first expectation's
failure is the result of the two-expectation list. -/
theorem C2_fail_fast_witness :
    runTests extFail baseTx (CacheState.new false) .MERGE Env.default
      ([expect0] ++ [expect0]) = .error (.err "boom") :=
  C2_fail_fast.1 extFail baseTx (CacheState.new false) .MERGE Env.default
    [expect0] [expect0] (.err "boom") (by rfl)

/-- C3: snapshot isolation — each expectation runs against a fresh copy
of the unit's cached pre-state and only overwritten transaction fields
of the threaded environment, so if expectation A passes, running A then
B yields exactly the run of B alone. -/
theorem C3_snapshot_isolation (ext : Ext) (tx : Transaction) (cache : CacheState)
    (sid : SpecId) (env : Env) (A B : PostExpectation) {envA : Env}
    (h : runTests ext tx cache sid env [A] = .ok envA) :
    runTests ext tx cache sid env [A, B] = runTests ext tx cache sid env [B] := by
  cases hA : overlayTx tx env A with
  | error f =>
    simp only [runTests, hA] at h
    exact Except.noConfusion h
  | ok envA2 =>
    cases hc : classify A.expect_exception
        (ext.engine sid envA2 (snapshotFor cache sid)).1 with
    | error f =>
      simp only [runTests, hA, hc] at h
      exact Except.noConfusion h
    | ok _ =>
      have hover := overlayTx_overwrite tx env envA2 A B hA
      simp only [runTests, hA, hc, hover]

/-- C3 witness: with an always-succeeding engine and the base unit's
single variant, running the expectation twice gives B the result of
running it alone. -/
theorem C3_snapshot_isolation_witness :
    runTests extOk baseTx (CacheState.new false) .MERGE Env.default [expect0, expect0] =
      runTests extOk baseTx (CacheState.new false) .MERGE Env.default [expect0] :=
  C3_snapshot_isolation extOk baseTx (CacheState.new false) .MERGE Env.default
    expect0 expect0 (by rfl)

/-- The base unit without any usable sender information. -/
def unitNoSender : TestUnit :=
  { baseUnit with transaction := { baseTx with sender := none } }

/-- C4: sender resolution — an explicit sender is used unchanged
(whatever the key); otherwise the caller is the keccak-256 digest of the
uncompressed public key without its leading format byte, truncated to
its low 20 bytes; and when there is no explicit sender and the key does
not parse, the unit fails (with the empty error string the code
produces) before any engine execution, whatever the engine does. -/
theorem C4_sender_resolution :
    (∀ (ext : Ext) (unit : TestUnit) (a : Address) {env2 : Env},
        unit.transaction.sender = some a →
        buildEnv ext unit = .ok env2 → env2.tx.caller = a) ∧
    (∀ (ext : Ext) (k : Bytes),
        recover_address ext k =
          (ext.secKeyToPubkey k).map (fun pub => (ext.keccak256 (pub.drop 1)).drop 12)) ∧
    (∀ (ext : Ext) (unit : TestUnit) (a : Address) {env2 : Env},
        unit.transaction.sender = none →
        recover_address ext unit.transaction.secret_key = some a →
        buildEnv ext unit = .ok env2 → env2.tx.caller = a) ∧
    (∀ (ext : Ext) (unit : TestUnit),
        unit.transaction.sender = none →
        ext.secKeyToPubkey unit.transaction.secret_key = none →
        blobPanics unit.env = false →
        execute_test_unit ext unit = .error (.err "")) := by
  refine ⟨?_, ?_, ?_, ?_⟩
  · intro ext unit a env2 hs hb
    cases hblob : blobStep ext (envBase unit) unit.env with
    | error f =>
      simp only [buildEnv, hblob] at hb
      exact Except.noConfusion hb
    | ok env1 =>
      simp only [buildEnv, hblob, senderStep_some ext env1 unit.transaction a hs] at hb
      cases hb
      rfl
  · intro ext k
    cases h : ext.secKeyToPubkey k <;> simp [recover_address, h]
  · intro ext unit a env2 hs hr hb
    cases hblob : blobStep ext (envBase unit) unit.env with
    | error f =>
      simp only [buildEnv, hblob] at hb
      exact Except.noConfusion hb
    | ok env1 =>
      simp only [buildEnv, hblob,
        senderStep_recover ext env1 unit.transaction a hs hr] at hb
      cases hb
      rfl
  · intro ext unit hs hk hbp
    obtain ⟨env1, hblob⟩ := blobStep_isOk ext (envBase unit) unit.env hbp
    have hr : recover_address ext unit.transaction.secret_key = none := by
      simp [recover_address, hk]
    simp only [execute_test_unit, buildEnv, hblob,
      senderStep_fail ext env1 unit.transaction hs hr]

/-- C4 witness: the concrete unit with no sender and an unparsable key
fails with the empty error string under an engine that would succeed. -/
theorem C4_sender_resolution_witness :
    execute_test_unit extOk unitNoSender = .error (.err "") :=
  C4_sender_resolution.2.2.2 extOk unitNoSender rfl rfl rfl

/-- A unit whose expectation selects gas index 1 while the template has
a single candidate gas limit. -/
def unitBadGasIndex : TestUnit :=
  { baseUnit with post := [(.Merge,
      [{ indexes := { data := 0, gas := 1, value := 0 }, expect_exception := none }])] }

/-- C5 counterexample: an out-of-bounds gas index terminates the unit by
the slice-indexing panic — the result is the `RunFailure.panic`
constructor, not an `IndexOutOfRange` error returned through
`execute_test_unit`'s error branch (`RunFailure.err`). -/
theorem C5_counterexample :
    execute_test_unit extOk unitBadGasIndex = .error (.panic "index out of range") := by
  rfl

/-- C5 amended: an expectation whose gas index exceeds the gas-limit
sequence (or whose data index exceeds the data sequence) makes variant
selection fail loudly by a panic — never a silent default — and that
panic, not an Err return through execute_test_unit's error branch, is
how such an expectation terminates the unit run. -/
theorem C5_oob_index_panics :
    (∀ (tx : Transaction) (env : Env) (t : PostExpectation),
        tx.gas_limit.get? t.indexes.gas = none →
        overlayTx tx env t = .error (.panic "index out of range")) ∧
    (∀ (tx : Transaction) (env : Env) (t : PostExpectation) (g : Nat),
        tx.gas_limit.get? t.indexes.gas = some g →
        tx.data.get? t.indexes.data = none →
        overlayTx tx env t = .error (.panic "called Option::unwrap() on a None value")) ∧
    (∀ (ext : Ext) (tx : Transaction) (cache : CacheState) (sid : SpecId) (env : Env)
        (t : PostExpectation) (rest : List PostExpectation) (m : String),
        overlayTx tx env t = .error (.panic m) →
        runTests ext tx cache sid env (t :: rest) = .error (.panic m)) := by
  refine ⟨?_, ?_, ?_⟩
  · intro tx env t hg
    simp only [overlayTx, hg]
  · intro tx env t g hg hd
    simp only [overlayTx, hg, hd]
  · intro ext tx cache sid env t rest m ho
    simp only [runTests, ho]

/-- C5 witness: the base template has one candidate gas limit, so gas
index 1 panics with the slice-indexing message. -/
theorem C5_oob_index_panics_witness :
    overlayTx baseTx Env.default
      { indexes := { data := 0, gas := 1, value := 0 }, expect_exception := none } =
      .error (.panic "index out of range") :=
  C5_oob_index_panics.1 baseTx Env.default
    { indexes := { data := 0, gas := 1, value := 0 }, expect_exception := none } rfl

/-- A unit whose post mapping names only excluded forks. -/
def unitOnlyExcluded : TestUnit :=
  { baseUnit with post := [(.Constantinople, [expect0]),
      (.ByzantiumToConstantinopleAt5, [expectExc]), (.Unknown, [])] }

/-- C6: the excluded fork names are skipped silently without error, and
a unit whose post mapping names only excluded forks yields Ok — for
every engine, so zero expectations are executed (provided the
environment itself builds, which never consults the engine). -/
theorem C6_fork_exclusion :
    (∀ (ext : Ext) (tx : Transaction) (cache : CacheState) (env : Env)
        (name : SpecName) (tests : List PostExpectation)
        (rest : List (SpecName × List PostExpectation)),
        excludedFork name = true →
        runForks ext tx cache env ((name, tests) :: rest) =
          runForks ext tx cache env rest) ∧
    (∀ (ext : Ext) (unit : TestUnit),
        (∀ p ∈ unit.post, excludedFork p.1 = true) →
        (∃ env, buildEnv ext unit = .ok env) →
        execute_test_unit ext unit = .ok ()) := by
  refine ⟨?_, ?_⟩
  · intro ext tx cache env name tests rest hx
    simp [runForks, hx]
  · intro ext unit hall hok
    obtain ⟨env, hb⟩ := hok
    simp only [execute_test_unit, hb, runForks_all_excluded ext unit.transaction
      (buildCacheState ext unit.pre) unit.post env hall]

/-- C6 witness: the only-excluded-forks unit passes even under an
always-failing engine. -/
theorem C6_fork_exclusion_witness :
    execute_test_unit extFail unitOnlyExcluded = .ok () :=
  C6_fork_exclusion.2 extFail unitOnlyExcluded (by decide) ⟨_, rfl⟩

/-- The base unit with both parent blob fields present. -/
def unitWithBlob : TestUnit :=
  { baseUnit with env := { baseUnitEnv with
      parent_blob_gas_used := some 100000
      parent_excess_blob_gas := some 500000 } }

/-- C7: the block environment's blob-gas pair is installed exactly when
both parent blob fields are present (as the EIP-4844 update of the two
values together with its derived price); when either is absent it stays
at its default, which is the unset/zero state — never partially
computed, since the excess and the price live in one optional pair. -/
theorem C7_blob_conditionality :
    (∀ (ext : Ext) (unit : TestUnit) (u e : Nat) {env2 : Env},
        unit.env.parent_blob_gas_used = some u →
        unit.env.parent_excess_blob_gas = some e →
        u < 2 ^ 64 → e < 2 ^ 64 →
        buildEnv ext unit = .ok env2 →
        env2.block.blob_excess_gas_and_price =
          some (calc_excess_blob_gas u e, ext.blobGasprice (calc_excess_blob_gas u e))) ∧
    (∀ (ext : Ext) (unit : TestUnit) {env2 : Env},
        unit.env.parent_blob_gas_used = none ∨ unit.env.parent_excess_blob_gas = none →
        buildEnv ext unit = .ok env2 →
        env2.block.blob_excess_gas_and_price =
          Env.default.block.blob_excess_gas_and_price) ∧
    (Env.default.block.blob_excess_gas_and_price = none) := by
  refine ⟨?_, ?_, rfl⟩
  · intro ext unit u e env2 hu he h1 h2 hb
    simp only [buildEnv,
      blobStep_eq_of_fits ext (envBase unit) unit.env u e hu he h1 h2] at hb
    cases hsend : senderStep ext (envWithBlob ext (envBase unit) u e) unit.transaction with
    | error f =>
      simp only [hsend] at hb
      exact Except.noConfusion hb
    | ok env3 =>
      simp only [hsend] at hb
      cases hb
      rw [finishTx_block, senderStep_block ext (envWithBlob ext (envBase unit) u e)
        env3 unit.transaction hsend]
      rfl
  · intro ext unit env2 hmiss hb
    simp only [buildEnv,
      blobStep_eq_of_missing ext (envBase unit) unit.env hmiss] at hb
    cases hsend : senderStep ext (envBase unit) unit.transaction with
    | error f =>
      simp only [hsend] at hb
      exact Except.noConfusion hb
    | ok env3 =>
      simp only [hsend] at hb
      cases hb
      rw [finishTx_block, senderStep_block ext (envBase unit) env3 unit.transaction hsend]
      rfl

/-- C7 witness: with both parent blob fields present, the built
environment carries the EIP-4844 update and its derived price. -/
theorem C7_blob_conditionality_witness :
    ∃ env2, buildEnv extOk unitWithBlob = .ok env2 ∧
      env2.block.blob_excess_gas_and_price =
        some (calc_excess_blob_gas 100000 500000,
          extOk.blobGasprice (calc_excess_blob_gas 100000 500000)) := by
  have hb : buildEnv extOk unitWithBlob = .ok _ := rfl
  exact ⟨_, hb, C7_blob_conditionality.1 extOk unitWithBlob 100000 500000 rfl rfl
    (by decide) (by decide) hb⟩

/-- C8: the per-expectation snapshot's state-clearing flag is computed
as `SpecId::enabled(spec_id, SPURIOUS_DRAGON)`, so for every
non-excluded fork name it is true exactly when the resolved ruleset
identifier is at or after Spurious Dragon (EIP-161) and false for
earlier forks; every non-excluded name does resolve. -/
theorem C8_state_clear_flag :
    (∀ (cache : CacheState) (sid : SpecId),
        (snapshotFor cache sid).has_state_clear = SpecId.enabled sid .SPURIOUS_DRAGON) ∧
    (∀ (name : SpecName) (sid : SpecId) (cache : CacheState),
        excludedFork name = false → name.to_spec_id = some sid →
        ((snapshotFor cache sid).has_state_clear = true ↔
          SpecId.SPURIOUS_DRAGON.toNat ≤ sid.toNat)) ∧
    (∀ name : SpecName, excludedFork name = false → name.to_spec_id ≠ none) := by
  refine ⟨fun cache sid => rfl, ?_, ?_⟩
  · intro name sid cache _ _
    simp [snapshotFor, SpecId.enabled, SpecId.toNat]
  · intro name h
    cases name <;> simp_all [excludedFork, SpecName.to_spec_id]

/-- C8 witness: the EIP158 fork name resolves to Spurious Dragon itself,
where the flag is on. -/
theorem C8_state_clear_flag_witness :
    (snapshotFor (CacheState.new false) .SPURIOUS_DRAGON).has_state_clear = true ↔
      SpecId.SPURIOUS_DRAGON.toNat ≤ SpecId.SPURIOUS_DRAGON.toNat :=
  C8_state_clear_flag.2.1 .EIP158 .SPURIOUS_DRAGON (CacheState.new false) rfl rfl

/-- C9: the engine-facing gas limit is the selected candidate clamped to
`u64::MAX` — the identity below the width, the maximum above it, never a
wrap-around. -/
theorem C9_gas_saturation :
    (∀ (tx : Transaction) (env : Env) (t : PostExpectation) (g : Nat) {env2 : Env},
        tx.gas_limit.get? t.indexes.gas = some g →
        overlayTx tx env t = .ok env2 →
        env2.tx.gas_limit = min g u64Max) ∧
    (∀ g : Nat, g ≤ u64Max → saturatingToU64 g = g) ∧
    (∀ g : Nat, u64Max < g → saturatingToU64 g = u64Max) := by
  refine ⟨?_, ?_, ?_⟩
  · intro tx env t g env2 hg hov
    cases hd : tx.data.get? t.indexes.data with
    | none =>
      simp only [overlayTx, hg, hd] at hov
      exact Except.noConfusion hov
    | some d =>
      cases hv : tx.value.get? t.indexes.value with
      | none =>
        simp only [overlayTx, hg, hd, hv] at hov
        exact Except.noConfusion hov
      | some v =>
        rw [overlayTx_ok tx env t g d v hg hd hv] at hov
        cases hov
        rfl
  · intro g h
    exact Nat.min_eq_left h
  · intro g h
    exact Nat.min_eq_right (le_of_lt h)

/-- A template whose single candidate gas limit exceeds u64. -/
def txBigGas : Transaction :=
  { baseTx with gas_limit := [2 ^ 70] }

/-- C9 witness: a candidate gas limit of 2^70 is clamped. -/
theorem C9_gas_saturation_witness :
    ∃ env2, overlayTx txBigGas Env.default expect0 = .ok env2 ∧
      env2.tx.gas_limit = min (2 ^ 70) u64Max := by
  have hov : overlayTx txBigGas Env.default expect0 = .ok _ := rfl
  exact ⟨_, hov, C9_gas_saturation.1 txBigGas Env.default expect0 (2 ^ 70) rfl hov⟩

/-- C10: when the three panicking look-ups are in bounds, variant
selection always succeeds whatever the access-list sequence holds; an
out-of-bounds or absent access-list entry silently yields the empty
access list, and a present entry is copied verbatim. -/
theorem C10_access_list_silent_default :
    ∀ (tx : Transaction) (env : Env) (t : PostExpectation) (g : Nat) (d : Bytes) (v : Nat),
      tx.gas_limit.get? t.indexes.gas = some g →
      tx.data.get? t.indexes.data = some d →
      tx.value.get? t.indexes.value = some v →
      ∃ env2, overlayTx tx env t = .ok env2 ∧
        ((tx.access_lists.get? t.indexes.data = none ∨
            tx.access_lists.get? t.indexes.data = some none) →
          env2.tx.access_list = []) ∧
        (∀ items, tx.access_lists.get? t.indexes.data = some (some items) →
          env2.tx.access_list = items.map (fun item =>
            ({ address := item.address, storage_keys := item.storage_keys } :
              RevmAccessListItem))) := by
  intro tx env t g d v hg hd hv
  refine ⟨_, overlayTx_ok tx env t g d v hg hd hv, ?_, ?_⟩
  · rintro (h | h) <;> simp only [List.get?_eq_getElem?] at h <;> simp [h]
  · intro items h
    simp only [List.get?_eq_getElem?] at h
    simp [h]

/-- C10 witness: the base template has an empty access-list sequence, so
index 0 is out of bounds and the selected access list is empty while
selection still succeeds. -/
theorem C10_access_list_silent_default_witness :
    ∃ env2, overlayTx baseTx Env.default expect0 = .ok env2 ∧
      env2.tx.access_list = [] := by
  obtain ⟨env2, h1, h2, h3⟩ :=
    C10_access_list_silent_default baseTx Env.default expect0 21000 [] 10 rfl rfl rfl
  exact ⟨env2, h1, h2 (Or.inl rfl)⟩

end GoatProver
